import Mathlib

/-!
Verification development for the classy autograding service.

Part 1 embeds the grader's HTTP route handler
(`src/grader/src/server/RouteHandler.ts`, `postGradingTask`) as a pure
function of an abstract run environment.

Part 2 models the AutoTest scheduler / feedback-quota core.  The
implementation of `GithubAutoTest` is not present in the analyzed sources
(only its test suite `src/autotest/core/test/AutoTestSpec.ts` is), so the
scheduler operations are modelled from the specification's component
design (sections 3-5 of the design document).
-/

namespace Classy

/-- Terminal state of a grading container run (`IContainerOutput.state`). -/
inductive ContainerState
  | SUCCESS
  | TIMEOUT
  | INVALID_REPORT
  | FAIL
deriving DecidableEq, Repr

/-- Structured grade report (`IGradeReport`); scores are numbers in the
source, modelled as integers, and the free-form `custom` payload is kept
abstractly as a list of strings. -/
structure GradeReport where
  scoreOverall : Int
  scoreTest : Int
  scoreCover : Int
  passNames : List String
  failNames : List String
  errorNames : List String
  skipNames : List String
  custom : List String
  feedback : String
deriving DecidableEq, Repr

/-- Outcome structure built by `postGradingTask` (`IContainerOutput`);
the `attachments` and `custom` fields of the source, which the handler
never writes after initialization, are omitted. -/
structure ContainerOutput where
  commitUrl : String
  timestamp : Nat
  report : Option GradeReport
  feedback : String
  postbackOnComplete : Bool
  state : ContainerState
deriving DecidableEq, Repr

/-- Abstract environment of one `postGradingTask` invocation: everything
the handler observes from the outside world.  `setupError` is true when
any step of the outer `try` block throws (clone, checkout, container
creation, waiting, log retrieval); `finishesInTime` is true when the
container exits before the registered kill timer fires; `reportOnDisk` is
`none` when reading `report.json` fails. -/
structure RunEnv where
  commitUrl : String
  now : Nat
  timeout : Int
  finishesInTime : Bool
  exitCode : Int
  reportOnDisk : Option GradeReport
  setupError : Bool
deriving DecidableEq, Repr

/-- Response of the grading route: the JSON body, whether the handler's
timer stopped the container, and the HTTP status code passed to
`res.json`. -/
structure GraderResponse where
  out : ContainerOutput
  stoppedContainer : Bool
  statusCode : Nat
deriving DecidableEq, Repr

/-- The run timed out: the timer was registered (`timeout > 0`) and the
container did not finish before it fired. -/
def didTimeout (env : RunEnv) : Prop := 0 < env.timeout ∧ ¬ env.finishesInTime

instance (env : RunEnv) : Decidable (didTimeout env) := by
  unfold didTimeout; infer_instance

/-- Shallow embedding of `RouteHandler.postGradingTask`
(`src/grader/src/server/RouteHandler.ts`, lines 39-185): the initial
`out` record, the timeout timer, the report-generation inner `try`, the
outer `catch`, and the `finally` that always answers 200. -/
def postGradingTask (env : RunEnv) : GraderResponse :=
  let base : ContainerOutput :=
    { commitUrl := env.commitUrl, timestamp := env.now, report := none,
      feedback := "", postbackOnComplete := false, state := .SUCCESS }
  if env.setupError then
    { out := { base with feedback := "Error running container.", state := .FAIL },
      stoppedContainer := false, statusCode := 200 }
  else if didTimeout env then
    { out := { base with
                 feedback := "Container did not complete in the allotted time.",
                 postbackOnComplete := true,
                 state := .TIMEOUT },
      stoppedContainer := true, statusCode := 200 }
  else
    match env.reportOnDisk with
    | some r =>
      { out := { base with
                   report := some r,
                   feedback := r.feedback,
                   postbackOnComplete := decide (env.exitCode ≠ 0),
                   state := .SUCCESS },
        stoppedContainer := false, statusCode := 200 }
    | none =>
      { out := { base with
                   feedback := "Failed to read grade report.",
                   state := .INVALID_REPORT },
        stoppedContainer := false, statusCode := 200 }

/-- Modelled from the spec: canonical commit-target record produced by
event ingestion (spec section 3; shape of the inbound push/comment events
of spec section 6, matching `CommitTarget` in the test data).  The
`GithubAutoTest` implementation is absent from the analyzed sources. -/
structure CommitTarget where
  repoId : String
  commitSHA : String
  commitURL : String
  cloneURL : String
  postbackURL : String
  delivId : String
  personId : Option String
  botMentioned : Bool
  timestamp : Nat
deriving DecidableEq, Repr

/-- Identity of a gradable unit used for deduplication:
(repoId, commitSHA, delivId) (spec section 3). -/
structure CommitId where
  repoId : String
  commitSHA : String
  delivId : String
deriving DecidableEq, Repr

/-- Identity of a commit target. -/
def cid (t : CommitTarget) : CommitId :=
  { repoId := t.repoId, commitSHA := t.commitSHA, delivId := t.delivId }

/-- Modelled from the spec: terminal outcome returned by the execution
service to the scheduler (spec section 6, `ExecutionService.run`). -/
structure ExecOutcome where
  state : ContainerState
  report : Option GradeReport
  feedback : String
  postbackOnComplete : Bool
  timestamp : Nat
deriving DecidableEq, Repr

/-- Queue tier (spec section 3, `QueueEntry`). -/
inductive Tier
  | STANDING
  | EXPRESS
deriving DecidableEq, Repr

/-- Modelled from the spec: an entry of the commit queue, wrapping the
commit target of a grading job with its tier and enqueue time. -/
structure QueueEntry where
  target : CommitTarget
  tier : Tier
  enqueueTime : Nat
deriving DecidableEq, Repr

/-- Modelled from the spec: persisted terminal result for a commit
identity (spec section 3, `AutoTestResult`). -/
structure AutoTestResult where
  id : CommitId
  commitURL : String
  output : ExecOutcome
deriving DecidableEq, Repr

/-- Feedback ledger entry (spec section 3, `FeedbackGiven`; matches
`IFeedbackGiven` in the test data). -/
structure FeedbackGiven where
  personId : String
  delivId : String
  commitURL : String
  timestamp : Nat
deriving DecidableEq, Repr

/-- An outbound message posted through the notifier, recorded with the
URL it is addressed to (matches `gh.messages` in the test suite). -/
structure Message where
  url : String
  message : String
deriving DecidableEq, Repr

/-- Modelled from the spec: scheduler configuration — concurrency cap,
quota grace window in milliseconds, quota limit, and the staff identities
exempt from quota (spec sections 4.3-4.4; window length and limit are
configuration values per the spec's design notes). -/
structure SchedulerConfig where
  maxConcurrent : Nat
  windowMs : Nat
  quota : Nat
  staff : List String
deriving DecidableEq, Repr

/-- Modelled from the spec: the whole observable state of the scheduler
core — persisted push/comment records, the two-tier queue, the in-flight
set, persisted results, the feedback ledger, registered pending comment
requests, and the log of outbound messages (spec sections 2-5). -/
structure SchedulerState where
  cfg : SchedulerConfig
  pushes : List CommitTarget
  comments : List CommitTarget
  queued : List QueueEntry
  running : List QueueEntry
  results : List AutoTestResult
  feedback : List FeedbackGiven
  pending : List CommitTarget
  messages : List Message
deriving DecidableEq, Repr

/-- Initial scheduler state: everything empty. -/
def initState (cfg : SchedulerConfig) : SchedulerState :=
  { cfg := cfg, pushes := [], comments := [], queued := [], running := [],
    results := [], feedback := [], pending := [], messages := [] }

/-- Identities currently queued. -/
def queuedIds (s : SchedulerState) : List CommitId :=
  s.queued.map (fun e => cid e.target)

/-- Identities currently in flight. -/
def runningIds (s : SchedulerState) : List CommitId :=
  s.running.map (fun e => cid e.target)

/-- Identities with a persisted terminal result. -/
def resultIds (s : SchedulerState) : List CommitId :=
  s.results.map (fun r => r.id)

/-- Identities that are queued or in flight. -/
def jobIds (s : SchedulerState) : List CommitId :=
  queuedIds s ++ runningIds s

/-- Terminal result stored for an identity, if any. -/
def findResult (s : SchedulerState) (i : CommitId) : Option AutoTestResult :=
  s.results.find? (fun r => r.id == i)

/-- Scheduler invariant: no identity occurs twice across the queue and
the in-flight set. -/
def JobInv (s : SchedulerState) : Prop := (jobIds s).Nodup

/-- Whether a person is a staff/admin identity. -/
def isStaff (cfg : SchedulerConfig) (pid : String) : Bool :=
  cfg.staff.contains pid

/-- Whether the ledger already holds a charge for this person against
this exact commit and deliverable. -/
def hasFeedbackFor (s : SchedulerState) (pid did url : String) : Bool :=
  s.feedback.any (fun f => f.personId == pid && f.delivId == did && f.commitURL == url)

/-- Charges of a person for a deliverable inside the sliding grace
window ending at `now` (spec section 4.4, step 3). -/
def recentCharges (s : SchedulerState) (pid did : String) (now : Nat) : List FeedbackGiven :=
  s.feedback.filter
    (fun f => f.personId == pid && f.delivId == did && decide (now - s.cfg.windowMs ≤ f.timestamp))

/-- Timestamp of the oldest charge in a list (0 for an empty list). -/
def oldestTimestamp : List FeedbackGiven → Nat
  | [] => 0
  | f :: fs => fs.foldl (fun a g => min a g.timestamp) f.timestamp

/-- Whether this person already registered a pending request for this
identity. -/
def hasPending (s : SchedulerState) (i : CommitId) (pid : String) : Bool :=
  s.pending.any (fun c => cid c == i && c.personId == some pid)

/-- Literal not-queued warning (spec section 6). -/
def notQueuedMsg : String :=
  "This commit is has not been queued; please make and push a new commit."

/-- Literal still-processing message for a deliverable (spec section 6). -/
def stillQueuedMsg (did : String) : String :=
  "This commit is still queued for processing against " ++ did ++
    ". Your results will be posted here as soon as they are ready."

/-- Literal rate-limit message for a wait of `wait` milliseconds
(spec section 6). -/
def rateLimitMsg (wait : Nat) : String :=
  "You must wait " ++ toString (wait / 3600000) ++ " hours and " ++
    toString (wait % 3600000 / 60000) ++ " minutes before requesting feedback."

/-- Modelled from the spec: `handlePushEvent` — ingest a push, persist a
push record and enqueue a standing-tier job unless the identity is
already at state QUEUED or beyond (queued, in flight, or already bearing
a terminal result; spec sections 4.2 and 4.5). -/
def handlePushEvent (p : CommitTarget) (s : SchedulerState) : SchedulerState :=
  let i := cid p
  if i ∈ queuedIds s ∨ i ∈ runningIds s ∨ i ∈ resultIds s then s
  else
    { s with
        pushes := s.pushes ++ [p],
        queued := s.queued ++ [{ target := p, tier := Tier.STANDING, enqueueTime := p.timestamp }] }

/-- Modelled from the spec: `FeedbackPolicy.evaluate` composed with the
comment path of the scheduler (spec section 4.4's ordered decision
table).  Comments that do not mention the bot, or carry no person, are
dropped by ingestion.  The event's own timestamp plays the role of
"now".  A rate-limited comment is not persisted as a comment record
(per the quota test of the test suite). -/
def handleCommentEvent (c : CommitTarget) (s : SchedulerState) : SchedulerState :=
  if !c.botMentioned then s else
  match c.personId with
  | none => s
  | some pid =>
    let i := cid c
    match findResult s i with
    | none =>
      if i ∈ queuedIds s ∨ i ∈ runningIds s then
        let s1 : SchedulerState :=
          { s with
              comments := s.comments ++ [c],
              messages := s.messages ++ [{ url := c.postbackURL, message := stillQueuedMsg c.delivId }] }
        if !isStaff s.cfg pid && !hasPending s i pid then
          { s1 with pending := s1.pending ++ [c] }
        else s1
      else
        { s with
            comments := s.comments ++ [c],
            messages := s.messages ++ [{ url := c.postbackURL, message := notQueuedMsg }] }
    | some r =>
      if hasFeedbackFor s pid c.delivId c.commitURL then
        { s with
            comments := s.comments ++ [c],
            messages := s.messages ++ [{ url := c.postbackURL, message := r.output.feedback }] }
      else if isStaff s.cfg pid then
        { s with
            comments := s.comments ++ [c],
            messages := s.messages ++ [{ url := c.postbackURL, message := r.output.feedback }],
            feedback := s.feedback ++
              [{ personId := pid, delivId := c.delivId, commitURL := c.commitURL, timestamp := c.timestamp }] }
      else
        let recent := recentCharges s pid c.delivId c.timestamp
        if recent.length < s.cfg.quota then
          { s with
              comments := s.comments ++ [c],
              messages := s.messages ++ [{ url := c.postbackURL, message := r.output.feedback }],
              feedback := s.feedback ++
                [{ personId := pid, delivId := c.delivId, commitURL := c.commitURL, timestamp := c.timestamp }] }
        else
          let wait := oldestTimestamp recent + s.cfg.windowMs - c.timestamp
          { s with
              messages := s.messages ++ [{ url := c.postbackURL, message := rateLimitMsg wait }] }

/-- Modelled from the spec: `CommitQueue.dequeueNext` — express entries
are always returned before standing entries; FIFO within a tier (spec
section 4.2). -/
def dequeueNext (q : List QueueEntry) : Option (QueueEntry × List QueueEntry) :=
  match q.filter (fun e => e.tier == Tier.EXPRESS) with
  | e :: _ => some (e, q.erase e)
  | [] =>
    match q with
    | [] => none
    | e :: rest => some (e, rest)

/-- Modelled from the spec: one admission step of `ExecutionAdmission` —
when in-flight capacity is available, pull the next eligible job from the
queue and mark it in flight (spec section 4.3). -/
def dispatchNext (s : SchedulerState) : SchedulerState :=
  if s.running.length < s.cfg.maxConcurrent then
    match dequeueNext s.queued with
    | some (e, rest) => { s with queued := rest, running := s.running ++ [e] }
    | none => s
  else s

/-- Modelled from the spec: completion of an in-flight job — persist the
terminal result, and either post automatically without charging (when the
outcome requests postback-on-complete, spec section 4.4 step 4) or answer
every registered pending request, charging each requester (spec sections
4.3 and 4.4 step 2). -/
def completeJob (i : CommitId) (out : ExecOutcome) (s : SchedulerState) : SchedulerState :=
  match s.running.find? (fun e => cid e.target == i) with
  | none => s
  | some e =>
    let s1 : SchedulerState :=
      { s with
          running := s.running.erase e,
          results := s.results ++ [{ id := i, commitURL := e.target.commitURL, output := out }] }
    if out.postbackOnComplete then
      { s1 with
          messages := s1.messages ++ [{ url := e.target.postbackURL, message := out.feedback }],
          pending := s1.pending.filter (fun c => !(cid c == i)) }
    else
      let reqs := s1.pending.filter (fun c => cid c == i)
      { s1 with
          messages := s1.messages ++ reqs.map (fun c => { url := c.postbackURL, message := out.feedback }),
          pending := s1.pending.filter (fun c => !(cid c == i)),
          feedback := s1.feedback ++ reqs.filterMap
            (fun c => c.personId.map
              (fun pid => { personId := pid, delivId := c.delivId, commitURL := c.commitURL,
                            timestamp := out.timestamp })) }

/-- Modelled from the spec: the events the scheduler core reacts to.
Per spec section 5 all queue and in-flight-set mutations are serialized,
so concurrent operation is modelled as an arbitrary interleaving of
these atomic steps. -/
inductive SchedEvent
  | push (p : CommitTarget)
  | comment (c : CommitTarget)
  | dispatch
  | complete (i : CommitId) (out : ExecOutcome)

/-- One serialized scheduler step. -/
def schedStep (s : SchedulerState) (e : SchedEvent) : SchedulerState :=
  match e with
  | .push p => handlePushEvent p s
  | .comment c => handleCommentEvent c s
  | .dispatch => dispatchNext s
  | .complete i out => completeJob i out s

/-- Run a sequence of scheduler events from a state. -/
def runEvents (s : SchedulerState) (evs : List SchedEvent) : SchedulerState :=
  evs.foldl schedStep s

/-- Process a list of push events in order. -/
def pushAll (ps : List CommitTarget) (s : SchedulerState) : SchedulerState :=
  ps.foldl (fun t p => handlePushEvent p t) s

/-- Number of ledger entries charged to a person for an exact
commit and deliverable. -/
def countFeedback (s : SchedulerState) (pid did url : String) : Nat :=
  (s.feedback.filter
    (fun f => f.personId == pid && f.delivId == did && f.commitURL == url)).length

/-! Concrete fixtures, mirroring the data of
`src/packages/autotest/test/TestData.ts` and the timestamps quoted in the
test suite's header comment. -/

/-- Test configuration: 12-hour grace window, quota of one request per
window, one staff member. -/
def cfg0 : SchedulerConfig :=
  { maxConcurrent := 5, windowMs := 43200000, quota := 1, staff := ["staff"] }

/-- Push fixture (after `TestData.pushEventA`). -/
def pushA : CommitTarget :=
  { repoId := "d0_team999",
    commitSHA := "abe1b0918b872997de4c4d2baf4c263f8d4c6dc2",
    commitURL := "https://github.test/d0_team999/commit/abe1",
    cloneURL := "",
    postbackURL := "EMPTY",
    delivId := "d1",
    personId := none,
    botMentioned := false,
    timestamp := 1516472872288 }

/-- Second push fixture with a distinct commit (after
`TestData.pushEventB`). -/
def pushB : CommitTarget :=
  { pushA with
      commitSHA := "eventb0918b872997de4c4d2baf4c263f8d4c6dc2",
      commitURL := "https://github.test/d0_team999/commit/eventb",
      timestamp := 1516992872288 }

/-- Comment fixture (after `TestData.commentRecordUserA`). -/
def commentA : CommitTarget :=
  { pushA with
      personId := some "cs310test",
      botMentioned := true,
      timestamp := 1516472873288 }

/-- Successful terminal outcome whose feedback is the literal used by the
test suite's mock grader. -/
def outOk : ExecOutcome :=
  { state := .SUCCESS, report := none, feedback := "Test execution complete.",
    postbackOnComplete := false, timestamp := 1516523418918 }

/-- Failed-build outcome requesting automatic postback. -/
def outFail : ExecOutcome :=
  { state := .FAIL, report := none, feedback := "Build Problem Encountered.",
    postbackOnComplete := true, timestamp := 1516523418918 }

/-- Stored result fixture for `pushA`'s identity. -/
def resA : AutoTestResult :=
  { id := cid pushA, commitURL := pushA.commitURL, output := outOk }

/-- Ledger charge for the same person and deliverable but another commit,
timed inside the grace window (after the `IFeedbackGiven` record of the
skipped quota test). -/
def fgOther : FeedbackGiven :=
  { personId := "cs310test", delivId := "d1",
    commitURL := "https://github.test/d0_team999/commit/someother",
    timestamp := 1516451273288 }

/-- Ledger charge for the exact commit of `commentA`. -/
def fgSame : FeedbackGiven :=
  { personId := "cs310test", delivId := "d1",
    commitURL := pushA.commitURL, timestamp := 1516451273288 }

/-- State holding a finished result for `pushA` and one charge for a
different commit inside the window. -/
def sQuota : SchedulerState :=
  { initState cfg0 with results := [resA], feedback := [fgOther] }

/-- State holding a finished result for `pushA` and one charge for the
exact same commit inside the window. -/
def sCharged : SchedulerState :=
  { initState cfg0 with results := [resA], feedback := [fgSame] }

/-- Scheduler state fixture with `pushA` dispatched and in flight. -/
def sRun : SchedulerState :=
  dispatchNext (handlePushEvent pushA (initState cfg0))

/-- Scheduler state fixture with `pushA` in flight and `commentA`
registered as a pending request. -/
def sInFlight : SchedulerState :=
  handleCommentEvent commentA sRun

/-- The queue entry created for `pushA`. -/
def entryA : QueueEntry :=
  { target := pushA, tier := Tier.STANDING, enqueueTime := pushA.timestamp }

/-- Grader environment fixture: positive timeout, container never
finishes. -/
def envT : RunEnv :=
  { commitUrl := "https://github.test/d0_team999/commit/abe1", now := 1516523418918,
    timeout := 6000, finishesInTime := false, exitCode := 137,
    reportOnDisk := none, setupError := false }

/-- Grader environment fixture: run finishes but the grade report cannot
be read. -/
def envIR : RunEnv :=
  { envT with timeout := 6000, finishesInTime := true, exitCode := 0, reportOnDisk := none }

/-- Grader environment fixture: a step of the outer processing block
throws. -/
def envFL : RunEnv :=
  { envT with setupError := true }

/-- Report fixture. -/
def repA : GradeReport :=
  { scoreOverall := 50, scoreTest := 50, scoreCover := 50,
    passNames := [], failNames := [], errorNames := [], skipNames := [],
    custom := [], feedback := "Test Feedback" }

/-- Grader environment fixture: clean run with a readable report and exit
code 0. -/
def envOK : RunEnv :=
  { envT with finishesInTime := true, exitCode := 0, reportOnDisk := some repA }

/-- Grader environment fixture: readable report, nonzero exit code. -/
def envNZ : RunEnv :=
  { envOK with exitCode := 1 }

/-! Theorems. -/

/-- C7: whenever the configured per-job timeout is positive and the
container has not finished when it elapses, the handler stops the
container and synthesizes a terminal TIMEOUT outcome (with its fixed
feedback text), answering 200 rather than propagating an error or
waiting indefinitely. -/
theorem grading_timeout_terminal (env : RunEnv)
    (hpos : 0 < env.timeout) (hfin : env.finishesInTime = false)
    (herr : env.setupError = false) :
    (postGradingTask env).out.state = ContainerState.TIMEOUT ∧
    (postGradingTask env).stoppedContainer = true ∧
    (postGradingTask env).out.feedback = "Container did not complete in the allotted time." ∧
    (postGradingTask env).statusCode = 200 := by
  simp [postGradingTask, didTimeout, hpos, hfin, herr]

/-- Witness for C7 at the concrete timeout environment. -/
theorem grading_timeout_terminal_w :
    (postGradingTask envT).out.state = ContainerState.TIMEOUT ∧
    (postGradingTask envT).stoppedContainer = true ∧
    (postGradingTask envT).out.feedback = "Container did not complete in the allotted time." ∧
    (postGradingTask envT).statusCode = 200 :=
  grading_timeout_terminal envT (by decide) (by decide) (by decide)

/-- C8: the grading route always answers 200 with an outcome in the
four-state terminal enum; an unreadable report produces INVALID_REPORT
with its fixed feedback, and any other processing error produces FAIL
with the generic feedback. -/
theorem grading_failures_contained (env : RunEnv) :
    (postGradingTask env).statusCode = 200 ∧
    ((postGradingTask env).out.state = ContainerState.SUCCESS ∨
     (postGradingTask env).out.state = ContainerState.TIMEOUT ∨
     (postGradingTask env).out.state = ContainerState.INVALID_REPORT ∨
     (postGradingTask env).out.state = ContainerState.FAIL) ∧
    (env.setupError = false → ¬ didTimeout env → env.reportOnDisk = none →
      (postGradingTask env).out.state = ContainerState.INVALID_REPORT ∧
      (postGradingTask env).out.feedback = "Failed to read grade report.") ∧
    (env.setupError = true →
      (postGradingTask env).out.state = ContainerState.FAIL ∧
      (postGradingTask env).out.feedback = "Error running container.") := by
  unfold postGradingTask
  by_cases herr : env.setupError = true
  · simp [herr]
  · simp only [Bool.not_eq_true] at herr
    by_cases ht : didTimeout env
    · simp [herr, ht]
    · cases hrep : env.reportOnDisk with
      | none => simp [herr, ht, hrep]
      | some r => simp [herr, ht, hrep]

/-- Witness for C8: the status code at a concrete environment, the
INVALID_REPORT shape at the unreadable-report environment, and the FAIL
shape at the failing environment. -/
theorem grading_failures_contained_w :
    (postGradingTask envOK).statusCode = 200 ∧
    (postGradingTask envIR).out.state = ContainerState.INVALID_REPORT ∧
    (postGradingTask envIR).out.feedback = "Failed to read grade report." ∧
    (postGradingTask envFL).out.state = ContainerState.FAIL ∧
    (postGradingTask envFL).out.feedback = "Error running container." :=
  ⟨(grading_failures_contained envOK).1,
   ((grading_failures_contained envIR).2.2.1 (by decide) (by decide) (by decide)).1,
   ((grading_failures_contained envIR).2.2.1 (by decide) (by decide) (by decide)).2,
   ((grading_failures_contained envFL).2.2.2 (by decide)).1,
   ((grading_failures_contained envFL).2.2.2 (by decide)).2⟩

/-- C10: in any run whose outer processing block does not throw, the
returned `postbackOnComplete` flag is true exactly when the run timed
out, or finished with a readable grade report and a nonzero container
exit code. -/
theorem postback_flag_iff_abnormal (env : RunEnv) (herr : env.setupError = false) :
    (postGradingTask env).out.postbackOnComplete = true ↔
      (didTimeout env ∨
        (¬ didTimeout env ∧ env.reportOnDisk.isSome ∧ env.exitCode ≠ 0)) := by
  unfold postGradingTask
  by_cases ht : didTimeout env
  · simp [herr, ht]
  · cases hrep : env.reportOnDisk with
    | none => simp [herr, ht, hrep]
    | some r => simp [herr, ht, hrep]

/-- Witness for C10 at three concrete environments: timed out, clean exit
with report, nonzero exit with report. -/
theorem postback_flag_iff_abnormal_w :
    ((postGradingTask envT).out.postbackOnComplete = true ↔
      (didTimeout envT ∨
        (¬ didTimeout envT ∧ envT.reportOnDisk.isSome ∧ envT.exitCode ≠ 0))) ∧
    ((postGradingTask envOK).out.postbackOnComplete = true ↔
      (didTimeout envOK ∨
        (¬ didTimeout envOK ∧ envOK.reportOnDisk.isSome ∧ envOK.exitCode ≠ 0))) ∧
    ((postGradingTask envNZ).out.postbackOnComplete = true ↔
      (didTimeout envNZ ∨
        (¬ didTimeout envNZ ∧ envNZ.reportOnDisk.isSome ∧ envNZ.exitCode ≠ 0))) :=
  ⟨postback_flag_iff_abnormal envT (by decide),
   postback_flag_iff_abnormal envOK (by decide),
   postback_flag_iff_abnormal envNZ (by decide)⟩

/-- A job identity that is in flight can actually be found in the
in-flight set. -/
theorem find_running (s : SchedulerState) (i : CommitId) (h : i ∈ runningIds s) :
    ∃ e, s.running.find? (fun e => cid e.target == i) = some e := by
  unfold runningIds at h
  rw [List.mem_map] at h
  obtain ⟨e, he, heq⟩ := h
  have h2 : (s.running.find? (fun e => cid e.target == i)).isSome :=
    List.find?_isSome.mpr ⟨e, he, by simp [heq]⟩
  exact Option.isSome_iff_exists.mp h2

/-- C4: a bot-addressed comment on an identity with no stored result and
no queued or in-flight job yields exactly the literal not-queued warning,
no feedback charge, and a persisted comment record. -/
theorem comment_not_queued (s : SchedulerState) (c : CommitTarget) (pid : String)
    (hb : c.botMentioned = true) (hp : c.personId = some pid)
    (hres : findResult s (cid c) = none)
    (hq : cid c ∉ queuedIds s) (hrun : cid c ∉ runningIds s) :
    (handleCommentEvent c s).messages =
      s.messages ++
        [{ url := c.postbackURL,
           message := "This commit is has not been queued; please make and push a new commit." }] ∧
    (handleCommentEvent c s).feedback = s.feedback ∧
    (handleCommentEvent c s).comments = s.comments ++ [c] := by
  unfold handleCommentEvent
  simp [hb, hp, hres, hq, hrun, notQueuedMsg]

/-- Witness for C4: the comment fixture against the empty initial
state. -/
theorem comment_not_queued_w :
    (handleCommentEvent commentA (initState cfg0)).messages =
      (initState cfg0).messages ++
        [{ url := commentA.postbackURL,
           message := "This commit is has not been queued; please make and push a new commit." }] ∧
    (handleCommentEvent commentA (initState cfg0)).feedback = (initState cfg0).feedback ∧
    (handleCommentEvent commentA (initState cfg0)).comments = (initState cfg0).comments ++ [commentA] :=
  comment_not_queued (initState cfg0) commentA "cs310test" rfl rfl rfl
    (by decide) (by decide)

/-- Appending one record to the ledger changes a key's count only if the
record matches the key. -/
theorem countFilter_append (l : List FeedbackGiven) (g : FeedbackGiven)
    (p : FeedbackGiven → Bool) :
    ((l ++ [g]).filter p).length =
      (l.filter p).length + (if p g then 1 else 0) := by
  rw [List.filter_append, List.length_append]
  split
  · next h => simp [List.filter, h]
  · next h => simp [List.filter, h]

/-- A ledger with no charge under a key counts zero for that key. -/
theorem hasFeedbackFor_false_count (s : SchedulerState) (pid did url : String)
    (h : hasFeedbackFor s pid did url = false) :
    countFeedback s pid did url = 0 := by
  unfold hasFeedbackFor at h
  rw [List.any_eq_false] at h
  unfold countFeedback
  rw [List.length_eq_zero, List.filter_eq_nil_iff]
  exact h

/-- Handling a comment either leaves the ledger unchanged, or appends a
single charge under a key whose ledger count was zero. -/
theorem handleComment_feedback_cases (c : CommitTarget) (s : SchedulerState) :
    (handleCommentEvent c s).feedback = s.feedback ∨
    ∃ pid r, c.personId = some pid ∧ findResult s (cid c) = some r ∧
      hasFeedbackFor s pid c.delivId c.commitURL = false ∧
      (handleCommentEvent c s).feedback =
        s.feedback ++ [{ personId := pid, delivId := c.delivId,
                         commitURL := c.commitURL, timestamp := c.timestamp }] := by
  by_cases hb : c.botMentioned
  · cases hp : c.personId with
    | none => left; simp [handleCommentEvent, hb, hp]
    | some pidc =>
      cases hres : findResult s (cid c) with
      | none =>
        left
        unfold handleCommentEvent
        simp only [hb, hp, hres, Bool.not_true, Bool.false_eq_true, if_false]
        split
        · split <;> rfl
        · rfl
      | some r =>
        by_cases hfg : hasFeedbackFor s pidc c.delivId c.commitURL
        · left; simp [handleCommentEvent, hb, hp, hres, hfg]
        · by_cases hstaff : isStaff s.cfg pidc
          · right
            exact ⟨pidc, r, rfl, rfl, by simpa using hfg,
              by simp [handleCommentEvent, hb, hp, hres, hfg, hstaff]⟩
          · by_cases hquo : (recentCharges s pidc c.delivId c.timestamp).length < s.cfg.quota
            · right
              exact ⟨pidc, r, rfl, rfl, by simpa using hfg,
                by simp [handleCommentEvent, hb, hp, hres, hfg, hstaff, hquo]⟩
            · left; simp [handleCommentEvent, hb, hp, hres, hfg, hstaff, hquo]
  · left; simp [handleCommentEvent, hb]

/-- C3: once a requester holds a FeedbackGiven record for the exact
commit and deliverable of a finished result, a further comment from them
returns the stored feedback text without touching the ledger; moreover no
comment ever raises a key's ledger count beyond one, since every charging
branch requires the key's count to be zero. -/
theorem cached_free_reread :
    (∀ (s : SchedulerState) (c : CommitTarget) (pid : String) (r : AutoTestResult),
      c.botMentioned = true → c.personId = some pid →
      findResult s (cid c) = some r →
      hasFeedbackFor s pid c.delivId c.commitURL = true →
      (handleCommentEvent c s).messages =
        s.messages ++ [{ url := c.postbackURL, message := r.output.feedback }] ∧
      (handleCommentEvent c s).feedback = s.feedback) ∧
    (∀ (s : SchedulerState) (c : CommitTarget) (pid did url : String),
      1 ≤ countFeedback s pid did url →
      countFeedback (handleCommentEvent c s) pid did url = countFeedback s pid did url) := by
  constructor
  · intro s c pid r hb hp hres hfg
    unfold handleCommentEvent
    simp [hb, hp, hres, hfg]
  · intro s c pid did url h1
    rcases handleComment_feedback_cases c s with h | ⟨pidc, r, hp, hres, hnofg, hfb⟩
    · unfold countFeedback; rw [h]
    · unfold countFeedback
      rw [hfb, countFilter_append]
      split
      · next hmatch =>
        exfalso
        simp only [Bool.and_eq_true, beq_iff_eq] at hmatch
        obtain ⟨⟨e1, e2⟩, e3⟩ := hmatch
        have h0 := hasFeedbackFor_false_count s pidc c.delivId c.commitURL hnofg
        rw [e1, e2, e3] at h0
        omega
      · rfl

/-- Witness for C3: a repeat comment on the charged fixture state returns
the stored text for free, and its ledger count for the key stays at
one. -/
theorem cached_free_reread_w :
    ((handleCommentEvent commentA sCharged).messages =
      sCharged.messages ++ [{ url := commentA.postbackURL, message := resA.output.feedback }] ∧
    (handleCommentEvent commentA sCharged).feedback = sCharged.feedback) ∧
    countFeedback (handleCommentEvent commentA sCharged) "cs310test" "d1" pushA.commitURL =
      countFeedback sCharged "cs310test" "d1" pushA.commitURL :=
  ⟨cached_free_reread.1 sCharged commentA "cs310test" resA rfl rfl (by decide) (by decide),
   cached_free_reread.2 sCharged commentA "cs310test" "d1" pushA.commitURL (by decide)⟩

/-- C2 counterexample: a non-staff user whose quota-filling charge inside
the window is for this very commit and deliverable gets the cached stored
feedback text, not the rate-limit wait message the claim asserts — the
cached-free check precedes the quota check in the decision table. -/
theorem rate_limit_claim_cx :
    (handleCommentEvent commentA sCharged).messages =
      [{ url := "EMPTY", message := "Test execution complete." }] ∧
    (handleCommentEvent commentA sCharged).messages ≠
      sCharged.messages ++
        [{ url := commentA.postbackURL,
           message := rateLimitMsg
             (oldestTimestamp (recentCharges sCharged "cs310test" "d1" commentA.timestamp) +
               sCharged.cfg.windowMs - commentA.timestamp) }] := by
  constructor
  · decide
  · decide

/-- C2 amended: a non-staff user with no charge yet for this exact
commit+deliverable, holding at least the quota limit of charges for the
deliverable inside the grace window, receives exactly the rate-limit
message whose wait time is (oldest in-window charge + window length) -
now, rendered in whole hours and minutes, with no new ledger entry and no
persisted comment. -/
theorem rate_limited_quota (s : SchedulerState) (c : CommitTarget) (pid : String)
    (r : AutoTestResult)
    (hb : c.botMentioned = true) (hp : c.personId = some pid)
    (hres : findResult s (cid c) = some r)
    (hnofg : hasFeedbackFor s pid c.delivId c.commitURL = false)
    (hstaff : isStaff s.cfg pid = false)
    (hquo : s.cfg.quota ≤ (recentCharges s pid c.delivId c.timestamp).length) :
    (handleCommentEvent c s).messages =
      s.messages ++
        [{ url := c.postbackURL,
           message := "You must wait " ++
             toString ((oldestTimestamp (recentCharges s pid c.delivId c.timestamp) +
               s.cfg.windowMs - c.timestamp) / 3600000) ++
             " hours and " ++
             toString ((oldestTimestamp (recentCharges s pid c.delivId c.timestamp) +
               s.cfg.windowMs - c.timestamp) % 3600000 / 60000) ++
             " minutes before requesting feedback." }] ∧
    (handleCommentEvent c s).feedback = s.feedback ∧
    (handleCommentEvent c s).comments = s.comments := by
  have hlt : ¬ ((recentCharges s pid c.delivId c.timestamp).length < s.cfg.quota) :=
    Nat.not_lt.mpr hquo
  unfold handleCommentEvent
  simp [hb, hp, hres, hnofg, hstaff, hlt, rateLimitMsg]

/-- Witness for the amended C2 at the quota fixture: the wait renders as
six whole hours. -/
theorem rate_limited_quota_w :
    (handleCommentEvent commentA sQuota).messages =
      sQuota.messages ++
        [{ url := commentA.postbackURL,
           message := "You must wait 6 hours and 0 minutes before requesting feedback." }] ∧
    (handleCommentEvent commentA sQuota).feedback = sQuota.feedback ∧
    (handleCommentEvent commentA sQuota).comments = sQuota.comments := by
  have h := rate_limited_quota sQuota commentA "cs310test" resA rfl rfl
    (by decide) (by decide) (by decide) (by decide)
  refine ⟨?_, h.2.1, h.2.2⟩
  rw [h.1]
  rfl

/-- C5: a bot-addressed comment on an identity that is queued or in
flight with no terminal result yet gets exactly the literal
still-processing message naming the deliverable, no charge, and (for a
non-staff requester without a prior request) a registered pending
request; and when the in-flight job completes without automatic postback
while exactly that one request is pending, exactly one postback with the
result's feedback text fires and exactly one ledger charge is created. -/
theorem still_processing_then_postback :
    (∀ (s : SchedulerState) (c : CommitTarget) (pid : String),
      c.botMentioned = true → c.personId = some pid →
      findResult s (cid c) = none →
      (cid c ∈ queuedIds s ∨ cid c ∈ runningIds s) →
      isStaff s.cfg pid = false →
      hasPending s (cid c) pid = false →
      (handleCommentEvent c s).messages =
        s.messages ++
          [{ url := c.postbackURL,
             message := "This commit is still queued for processing against " ++ c.delivId ++
               ". Your results will be posted here as soon as they are ready." }] ∧
      (handleCommentEvent c s).feedback = s.feedback ∧
      (handleCommentEvent c s).pending = s.pending ++ [c]) ∧
    (∀ (s : SchedulerState) (c : CommitTarget) (pid : String) (out : ExecOutcome),
      c.personId = some pid →
      s.pending.filter (fun x => cid x == cid c) = [c] →
      cid c ∈ runningIds s →
      out.postbackOnComplete = false →
      (completeJob (cid c) out s).messages =
        s.messages ++ [{ url := c.postbackURL, message := out.feedback }] ∧
      (completeJob (cid c) out s).feedback =
        s.feedback ++ [{ personId := pid, delivId := c.delivId,
                         commitURL := c.commitURL, timestamp := out.timestamp }]) := by
  constructor
  · intro s c pid hb hp hres hproc hstaff hpend
    unfold handleCommentEvent
    simp [hb, hp, hres, hproc, hstaff, hpend, stillQueuedMsg]
  · intro s c pid out hp hfilter hrun hpb
    obtain ⟨e, he⟩ := find_running s (cid c) hrun
    unfold completeJob
    rw [he]
    simp [hpb, hfilter, hp]

/-- Witness for C5: the full scenario — push, dispatch, comment while in
flight, completion — at the concrete fixtures. -/
theorem still_processing_then_postback_w :
    ((handleCommentEvent commentA sRun).messages =
      sRun.messages ++
        [{ url := commentA.postbackURL,
           message := "This commit is still queued for processing against " ++ commentA.delivId ++
             ". Your results will be posted here as soon as they are ready." }] ∧
    (handleCommentEvent commentA sRun).feedback = sRun.feedback ∧
    (handleCommentEvent commentA sRun).pending = sRun.pending ++ [commentA]) ∧
    ((completeJob (cid commentA) outOk sInFlight).messages =
      sInFlight.messages ++ [{ url := commentA.postbackURL, message := outOk.feedback }] ∧
    (completeJob (cid commentA) outOk sInFlight).feedback =
      sInFlight.feedback ++ [{ personId := "cs310test", delivId := commentA.delivId,
                               commitURL := commentA.commitURL, timestamp := outOk.timestamp }]) :=
  ⟨still_processing_then_postback.1 sRun commentA "cs310test" rfl rfl (by decide)
      (by decide) (by decide) (by decide),
   still_processing_then_postback.2 sInFlight commentA "cs310test" outOk rfl
      (by decide) (by decide) (by decide)⟩

/-- C6: completing an in-flight job whose outcome requests automatic
postback (the always-postback push whose build failed) posts exactly one
message — the outcome's feedback text, e.g. "Build Problem Encountered."
— to the push's postback URL and creates no ledger charge, regardless of
any pending comment requests for the identity. -/
theorem auto_postback_no_charge (s : SchedulerState) (i : CommitId) (out : ExecOutcome)
    (e : QueueEntry)
    (hfind : s.running.find? (fun x => cid x.target == i) = some e)
    (hpb : out.postbackOnComplete = true) :
    (completeJob i out s).messages =
      s.messages ++ [{ url := e.target.postbackURL, message := out.feedback }] ∧
    (completeJob i out s).feedback = s.feedback := by
  unfold completeJob
  rw [hfind]
  simp [hpb]

/-- Witness for C6: completing the in-flight fixture (which also has a
pending comment request) with the failed-build auto-postback outcome. -/
theorem auto_postback_no_charge_w :
    (completeJob (cid pushA) outFail sInFlight).messages =
      sInFlight.messages ++ [{ url := entryA.target.postbackURL, message := outFail.feedback }] ∧
    (completeJob (cid pushA) outFail sInFlight).feedback = sInFlight.feedback :=
  auto_postback_no_charge sInFlight (cid pushA) outFail entryA (by decide) (by decide)

/-- Pushing an identity that is queued, in flight, or already finished is
absorbed without any state change. -/
theorem handlePush_noop (s : SchedulerState) (p : CommitTarget)
    (h : cid p ∈ queuedIds s ∨ cid p ∈ runningIds s ∨ cid p ∈ resultIds s) :
    handlePushEvent p s = s := by
  simp [handlePushEvent, h]

/-- Counting lemma for sets: moving a fresh element from the pool to the
seen side. -/
theorem insert_sdiff_card {α : Type} [DecidableEq α] (a : α) (A B : Finset α)
    (h : a ∉ B) : (insert a A \ B).card = (A \ insert a B).card + 1 := by
  have hset : insert a A \ B = insert a (A \ insert a B) := by
    ext x
    simp only [Finset.mem_sdiff, Finset.mem_insert]
    constructor
    · rintro ⟨hx | hx, hxB⟩
      · exact Or.inl hx
      · by_cases hxa : x = a
        · exact Or.inl hxa
        · exact Or.inr ⟨hx, fun hc => hc.elim hxa hxB⟩
    · rintro (rfl | ⟨hxA, hxn⟩)
      · exact ⟨Or.inl rfl, h⟩
      · exact ⟨Or.inr hxA, fun hxB => hxn (Or.inr hxB)⟩
  rw [hset, Finset.card_insert_of_not_mem]
  simp [Finset.mem_sdiff]

/-- Processing pushes from a state with nothing in flight or finished
grows the persisted push records by the number of fresh identities. -/
theorem pushAll_len (ps : List CommitTarget) :
    ∀ (s : SchedulerState), s.running = [] → s.results = [] →
      (pushAll ps s).pushes.length =
        s.pushes.length + ((ps.map cid).toFinset \ (queuedIds s).toFinset).card := by
  induction ps with
  | nil =>
    intro s h1 h2
    simp [pushAll]
  | cons p ps ih =>
    intro s h1 h2
    have hstep : pushAll (p :: ps) s = pushAll ps (handlePushEvent p s) := rfl
    rw [hstep]
    by_cases hq : cid p ∈ queuedIds s
    · rw [handlePush_noop s p (Or.inl hq)]
      rw [ih s h1 h2]
      congr 2
      rw [List.map_cons, List.toFinset_cons,
        Finset.insert_sdiff_of_mem _ (List.mem_toFinset.mpr hq)]
    · have hcond : ¬ (cid p ∈ queuedIds s ∨ cid p ∈ runningIds s ∨ cid p ∈ resultIds s) := by
        simp [hq, runningIds, resultIds, h1, h2]
      have hpush : handlePushEvent p s =
          { s with
              pushes := s.pushes ++ [p],
              queued := s.queued ++
                [{ target := p, tier := Tier.STANDING, enqueueTime := p.timestamp }] } := by
        simp [handlePushEvent, hcond]
      rw [hpush]
      rw [ih _ (by simpa using h1) (by simpa using h2)]
      have hQ : (queuedIds
          { s with
              pushes := s.pushes ++ [p],
              queued := s.queued ++
                [{ target := p, tier := Tier.STANDING, enqueueTime := p.timestamp }] }).toFinset =
          insert (cid p) (queuedIds s).toFinset := by
        unfold queuedIds
        simp only [List.map_append, List.map_cons, List.map_nil, List.toFinset_append]
        ext x
        simp [or_comm]
      rw [hQ]
      have hcard := insert_sdiff_card (cid p) (ps.map cid).toFinset (queuedIds s).toFinset
        (fun hc => hq (List.mem_toFinset.mp hc))
      rw [List.map_cons, List.toFinset_cons, hcard]
      simp only [List.length_append, List.length_cons, List.length_nil]
      omega

/-- C1: pushing an identity that is already queued or in flight is a
no-op, and processing any sequence of pushes from the initial state
persists exactly one push record per distinct identity. -/
theorem push_idempotent_and_counted :
    (∀ (s : SchedulerState) (p : CommitTarget),
      cid p ∈ queuedIds s ∨ cid p ∈ runningIds s → handlePushEvent p s = s) ∧
    (∀ (cfg : SchedulerConfig) (ps : List CommitTarget),
      (pushAll ps (initState cfg)).pushes.length = (ps.map cid).dedup.length) := by
  constructor
  · intro s p h
    exact handlePush_noop s p (h.elim Or.inl (fun h2 => Or.inr (Or.inl h2)))
  · intro cfg ps
    have h := pushAll_len ps (initState cfg) rfl rfl
    rw [h]
    have hq : queuedIds (initState cfg) = [] := rfl
    rw [hq]
    simp [List.card_toFinset, initState]

/-- Witness for C1: a duplicate push of the fixture is absorbed, and a
triple of pushes with two distinct identities persists two records. -/
theorem push_idempotent_and_counted_w :
    handlePushEvent pushA (handlePushEvent pushA (initState cfg0)) =
      handlePushEvent pushA (initState cfg0) ∧
    (pushAll [pushA, pushA, pushB] (initState cfg0)).pushes.length =
      ([pushA, pushA, pushB].map cid).dedup.length :=
  ⟨push_idempotent_and_counted.1 (handlePushEvent pushA (initState cfg0)) pushA
      (Or.inl (by decide)),
   push_idempotent_and_counted.2 cfg0 [pushA, pushA, pushB]⟩

/-- Handling a comment never touches the queue or the in-flight set. -/
theorem handleComment_jobs (c : CommitTarget) (s : SchedulerState) :
    (handleCommentEvent c s).queued = s.queued ∧
    (handleCommentEvent c s).running = s.running := by
  by_cases hb : c.botMentioned
  · cases hp : c.personId with
    | none => simp [handleCommentEvent, hb, hp]
    | some pidc =>
      cases hres : findResult s (cid c) with
      | none =>
        unfold handleCommentEvent
        simp only [hb, hp, hres, Bool.not_true, Bool.false_eq_true, if_false]
        refine ⟨?_, ?_⟩ <;>
        · split
          · split <;> rfl
          · rfl
      | some r =>
        unfold handleCommentEvent
        simp only [hb, hp, hres, Bool.not_true, Bool.false_eq_true, if_false]
        refine ⟨?_, ?_⟩ <;>
        · split
          · rfl
          · split
            · rfl
            · split <;> rfl
  · simp [handleCommentEvent, hb]

/-- The dequeued entry together with the remaining queue is a
permutation of the original queue. -/
theorem dequeue_perm (q : List QueueEntry) (e : QueueEntry) (rest : List QueueEntry)
    (h : dequeueNext q = some (e, rest)) : q.Perm (e :: rest) := by
  unfold dequeueNext at h
  split at h
  · next e2 l heq =>
    rw [Option.some.injEq, Prod.mk.injEq] at h
    obtain ⟨he, hrest⟩ := h
    rw [← he, ← hrest]
    exact List.perm_cons_erase
      (List.mem_of_mem_filter (heq ▸ List.mem_cons_self e2 l))
  · split at h
    · exact absurd h (by simp)
    · rw [Option.some.injEq, Prod.mk.injEq] at h
      obtain ⟨he, hrest⟩ := h
      rw [← he, ← hrest]

/-- Every serialized scheduler step preserves the no-duplicate-identity
invariant over the queue and the in-flight set. -/
theorem step_inv (s : SchedulerState) (e : SchedEvent) (h : JobInv s) :
    JobInv (schedStep s e) := by
  cases e with
  | push p =>
    show JobInv (handlePushEvent p s)
    by_cases hc : cid p ∈ queuedIds s ∨ cid p ∈ runningIds s ∨ cid p ∈ resultIds s
    · rw [handlePush_noop s p hc]; exact h
    · have hpush : handlePushEvent p s =
          { s with
              pushes := s.pushes ++ [p],
              queued := s.queued ++
                [{ target := p, tier := Tier.STANDING, enqueueTime := p.timestamp }] } := by
        simp [handlePushEvent, hc]
      push_neg at hc
      obtain ⟨h1, h2, _⟩ := hc
      have hQ : queuedIds (handlePushEvent p s) = queuedIds s ++ [cid p] := by
        rw [hpush]; simp [queuedIds]
      have hR : runningIds (handlePushEvent p s) = runningIds s := by
        rw [hpush]; simp [runningIds]
      unfold JobInv jobIds
      rw [hQ, hR, List.append_assoc, List.singleton_append]
      refine (List.perm_middle).symm.nodup ?_
      refine List.nodup_cons.mpr ⟨?_, h⟩
      rw [List.mem_append]
      rintro (hx | hx)
      · exact h1 hx
      · exact h2 hx
  | comment c =>
    have hj := handleComment_jobs c s
    show JobInv (handleCommentEvent c s)
    unfold JobInv jobIds queuedIds runningIds at h ⊢
    rw [hj.1, hj.2]
    exact h
  | dispatch =>
    show JobInv (dispatchNext s)
    unfold dispatchNext
    split
    · cases hdq : dequeueNext s.queued with
      | none => exact h
      | some pr =>
        obtain ⟨e, rest⟩ := pr
        show JobInv { s with queued := rest, running := s.running ++ [e] }
        have hperm := dequeue_perm s.queued e rest hdq
        unfold JobInv jobIds queuedIds runningIds at h ⊢
        simp only [List.map_append, List.map_cons, List.map_nil]
        have hmap : List.Perm (s.queued.map (fun x => cid x.target))
            (cid e.target :: rest.map (fun x => cid x.target)) :=
          hperm.map (fun x => cid x.target)
        have hold : List.Perm
            (s.queued.map (fun x => cid x.target) ++ s.running.map (fun x => cid x.target))
            (cid e.target :: (rest.map (fun x => cid x.target) ++
              s.running.map (fun x => cid x.target))) := by
          have h4 := hmap.append_right (s.running.map (fun x => cid x.target))
          simpa using h4
        have hnew : List.Perm
            (rest.map (fun x => cid x.target) ++
              (s.running.map (fun x => cid x.target) ++ [cid e.target]))
            (cid e.target :: (rest.map (fun x => cid x.target) ++
              s.running.map (fun x => cid x.target))) := by
          rw [← List.append_assoc]
          have h5 := @List.perm_middle CommitId (cid e.target)
            (rest.map (fun x => cid x.target) ++ s.running.map (fun x => cid x.target)) []
          simpa using h5
        exact (hold.trans hnew.symm).nodup h
    · exact h
  | complete i out =>
    show JobInv (completeJob i out s)
    cases hf : s.running.find? (fun x => cid x.target == i) with
    | none =>
      have hid : completeJob i out s = s := by
        unfold completeJob; rw [hf]
      rw [hid]; exact h
    | some e =>
      have hqe : (completeJob i out s).queued = s.queued := by
        unfold completeJob
        rw [hf]
        by_cases hpb : out.postbackOnComplete <;> simp [hpb]
      have hre : (completeJob i out s).running = s.running.erase e := by
        unfold completeJob
        rw [hf]
        by_cases hpb : out.postbackOnComplete <;> simp [hpb]
      have he : e ∈ s.running := List.mem_of_find?_eq_some hf
      have hperm : List.Perm s.running (e :: s.running.erase e) :=
        List.perm_cons_erase he
      have key : (s.queued.map (fun x => cid x.target) ++
          (s.running.erase e).map (fun x => cid x.target)).Nodup := by
        unfold JobInv jobIds queuedIds runningIds at h
        have h2 : List.Perm
            (s.queued.map (fun x => cid x.target) ++ s.running.map (fun x => cid x.target))
            (s.queued.map (fun x => cid x.target) ++
              (cid e.target :: (s.running.erase e).map (fun x => cid x.target))) :=
          List.Perm.append_left _ (hperm.map (fun x => cid x.target))
        have h3 := h2.nodup h
        exact List.Nodup.sublist
          ((List.sublist_cons_self (cid e.target) _).append_left _) h3
      unfold JobInv jobIds queuedIds runningIds
      rw [hqe, hre]
      exact key

/-- The invariant holds along any event trace. -/
theorem run_inv (evs : List SchedEvent) :
    ∀ (s : SchedulerState), JobInv s → JobInv (runEvents s evs) := by
  induction evs with
  | nil => intro s h; exact h
  | cons e evs ih => intro s h; exact ih (schedStep s e) (step_inv s e h)

/-- Pushes whose identities are all already present are fully
absorbed. -/
theorem pushAll_absorb (ps : List CommitTarget) :
    ∀ (s : SchedulerState),
      (∀ q ∈ ps, cid q ∈ queuedIds s ∨ cid q ∈ runningIds s ∨ cid q ∈ resultIds s) →
      pushAll ps s = s := by
  induction ps with
  | nil => intro s _; rfl
  | cons p ps ih =>
    intro s hall
    have h0 := handlePush_noop s p (hall p (by simp))
    calc pushAll (p :: ps) s = pushAll ps (handlePushEvent p s) := rfl
      _ = pushAll ps s := by rw [h0]
      _ = s := ih s (fun q hq => hall q (by simp [hq]))

/-- C9: along every interleaving of serialized scheduler events from the
initial state, no identity is ever in flight more than once; and any
number of pushes of one identity leaves exactly one job for it. -/
theorem at_most_one_in_flight :
    (∀ (cfg : SchedulerConfig) (evs : List SchedEvent) (i : CommitId),
      (runningIds (runEvents (initState cfg) evs)).count i ≤ 1) ∧
    (∀ (cfg : SchedulerConfig) (p : CommitTarget) (ps : List CommitTarget),
      (∀ q ∈ ps, cid q = cid p) →
      (jobIds (pushAll (p :: ps) (initState cfg))).count (cid p) = 1) := by
  constructor
  · intro cfg evs i
    have hinv : JobInv (runEvents (initState cfg) evs) :=
      run_inv evs (initState cfg)
        (by unfold JobInv jobIds queuedIds runningIds initState; simp)
    unfold JobInv jobIds at hinv
    exact List.nodup_iff_count_le_one.mp hinv.of_append_right i
  · intro cfg p ps hps
    have hcond : ¬ (cid p ∈ queuedIds (initState cfg) ∨
        cid p ∈ runningIds (initState cfg) ∨ cid p ∈ resultIds (initState cfg)) := by
      simp [initState, queuedIds, runningIds, resultIds]
    have hq1 : queuedIds (handlePushEvent p (initState cfg)) = [cid p] := by
      simp [handlePushEvent, queuedIds, runningIds, resultIds, initState]
    have hr1 : runningIds (handlePushEvent p (initState cfg)) = [] := by
      simp [handlePushEvent, queuedIds, runningIds, resultIds, initState]
    have habs : pushAll ps (handlePushEvent p (initState cfg)) =
        handlePushEvent p (initState cfg) := by
      refine pushAll_absorb ps _ (fun q hq => Or.inl ?_)
      rw [hps q hq, hq1]
      exact List.mem_cons_self _ _
    have hstep : pushAll (p :: ps) (initState cfg) =
        pushAll ps (handlePushEvent p (initState cfg)) := rfl
    rw [hstep, habs]
    unfold jobIds
    rw [hq1, hr1]
    simp

/-- Witness for C9: a concrete event trace with duplicate pushes and a
dispatch, and a triple push of one identity. -/
theorem at_most_one_in_flight_w :
    (runningIds (runEvents (initState cfg0)
      [SchedEvent.push pushA, SchedEvent.push pushA, SchedEvent.dispatch,
       SchedEvent.push pushA])).count (cid pushA) ≤ 1 ∧
    (jobIds (pushAll [pushA, pushA, pushA] (initState cfg0))).count (cid pushA) = 1 :=
  ⟨at_most_one_in_flight.1 cfg0
      [SchedEvent.push pushA, SchedEvent.push pushA, SchedEvent.dispatch,
       SchedEvent.push pushA] (cid pushA),
   at_most_one_in_flight.2 cfg0 pushA [pushA, pushA] (by decide)⟩

end Classy
